import Mathlib

/-!
A shallow embedding of the vehicle-data edge function of the carintel
repository (the `vehicles` Deno/Supabase function) together with proofs
about its observable behavior.

The embedding models:
- the JavaScript string/number primitives the handlers rely on
  (`toUpperCase`, `toLowerCase`, `trim`, `parseInt`, `split`, truthiness);
- SQL `ILIKE` pattern matching used by the Supabase query builder;
- the handler logic of `handleVinDecode`, `handleVinLookup` (spec
  resolution), `handleWarranty`, `handleMarketValue` (mileage
  adjustment), `handleMaintenance`, `handleMakes` and
  `handleVehicleSearch` from `supabase/functions/vehicles/index.ts`.

Database queries are modeled extensionally: a handler receives the list
of rows the store would return (or an error value), and the row-filtering
performed inside the SQL query is modeled as `List.filter` over a row
list with the same predicates the query builder sends to the store.

The response helpers (`successResponse`, `errorResponse`,
`notFoundResponse`, `internalErrorResponse`) live in `_shared/response.ts`;
they are modeled as the constructors of `Resp`, following the envelope
described by the handlers that call them (either a success payload or an
error with a code and a message).
-/

namespace CarIntel

/-! ## JavaScript primitives -/

/-- `String.prototype.toUpperCase` restricted to the ASCII range (the VIN
alphabet and the catalog strings the handlers compare are ASCII). -/
def jsToUpper (s : String) : String :=
  String.mk (s.data.map Char.toUpper)

/-- `String.prototype.toLowerCase` restricted to the ASCII range. -/
def jsToLower (s : String) : String :=
  String.mk (s.data.map Char.toLower)

/-- `String.prototype.trim`: drop leading and trailing whitespace. -/
def jsTrim (s : String) : String :=
  String.mk (((s.data.dropWhile Char.isWhitespace).reverse.dropWhile
    Char.isWhitespace).reverse)

/-- Numeric value of a decimal digit character. -/
def digitVal (c : Char) : Nat :=
  c.toNat - 48

/-- Value of a list of decimal digit characters, most significant first. -/
def decDigitsVal (cs : List Char) : Nat :=
  cs.foldl (fun a c => a * 10 + digitVal c) 0

/-- JavaScript `parseInt` with radix 10 inferred: an optional sign followed
by the longest decimal-digit run; `none` models `NaN`.  The `0x` hexadecimal
form is not modeled: no call site can produce a hexadecimal literal whose
value matters (a 4-character token can encode at most `0xFF = 255` that way,
far below the year range the tokenizer tests, and VIN years/mileages come
from decimal query strings). -/
def jsParseInt (s : String) : Option Int :=
  match s.data with
  | [] => none
  | c :: rest =>
    if c = '-' then
      let ds := rest.takeWhile Char.isDigit
      if ds.isEmpty then none else some (-(decDigitsVal ds : Int))
    else if c = '+' then
      let ds := rest.takeWhile Char.isDigit
      if ds.isEmpty then none else some (decDigitsVal ds : Int)
    else
      let ds := (c :: rest).takeWhile Char.isDigit
      if ds.isEmpty then none else some (decDigitsVal ds : Int)

/-- Split a character list at every character satisfying `p`, keeping
empty fragments (the splitting behavior of `String.prototype.split` with a
single-character separator). -/
def splitCharsBy (p : Char → Bool) : List Char → List (List Char)
  | [] => [[]]
  | c :: cs =>
    match splitCharsBy p cs with
    | [] => if p c then [[], [c]] else [[c]]
    | g :: gs => if p c then [] :: g :: gs else (c :: g) :: gs

/-- JavaScript `split(sep)` for a one-character separator. -/
def jsSplitOnChar (sep : Char) (s : String) : List String :=
  (splitCharsBy (fun c => c = sep) s.data).map String.mk

/-- JavaScript `split(/\s+/)` as applied by the handlers.  The call sites
only ever split an already-trimmed string, on which splitting at every
whitespace character and dropping empty fragments coincides with the
JavaScript regular expression split (for the empty string JavaScript
yields `[""]` while this yields `[]`; the sole consumer drops empty
tokens, so the two agree on every observable outcome). -/
def jsSplitWs (s : String) : List String :=
  ((splitCharsBy Char.isWhitespace s.data).map String.mk).filter (fun t => t ≠ "")

/-- JavaScript `a || b` on a nullable string: the left operand wins when it
is truthy (non-null and non-empty). -/
def orStr (a : Option String) (b : String) : String :=
  match a with
  | some s => if s = "" then b else s
  | none => b

/-- JavaScript truthiness of a nullable number: `null`, `0` are falsy. -/
def truthyNum (v : Option Int) : Bool :=
  match v with
  | some n => n ≠ 0
  | none => false

/-! ## SQL `ILIKE` pattern matching

The Supabase query builder sends `ilike(column, pattern)` filters; `%`
matches any substring and `_` any single character, case-insensitively. -/

/-- Core `LIKE` matcher over character lists: first argument is the
pattern, second the candidate string. -/
def likeMatch : List Char → List Char → Bool
  | [], [] => true
  | p :: ps, [] => if p = '%' then likeMatch ps [] else false
  | [], _ :: _ => false
  | p :: ps, c :: cs =>
    if p = '%' then likeMatch ps (c :: cs) || likeMatch (p :: ps) cs
    else (p = '_' || p = c) && likeMatch ps cs
termination_by p s => (p.length, s.length)

/-- `value ILIKE pattern`: case-insensitivity is modeled by lowercasing
both sides. -/
def ilikeMatches (value : String) (pattern : String) : Bool :=
  likeMatch (jsToLower pattern).data (jsToLower value).data

/-- A pattern string with no `LIKE` metacharacters. -/
def plainPattern (p : String) : Bool :=
  p.data.all (fun c => c ≠ '%' && c ≠ '_')

/-! ## Response envelope

Models the `_shared/response.ts` helpers: `successResponse` (a `{data}`
envelope), `errorResponse(code, message)` (an `{error: {code, message}}`
envelope), `notFoundResponse(message)` and `internalErrorResponse()`. -/

inductive Resp (α : Type) where
  | success (data : α)
  | apiError (code : String) (message : String)
  | notFound (message : String)
  | internalError
deriving DecidableEq

/-- A database query outcome: rows, or a store error carrying a code. -/
structure DbError where
  code : String
deriving DecidableEq

/-! ## VIN validation (`handleVinDecode` / `handleVinLookup` prologue) -/

/-- Membership in the VIN character class `[A-HJ-NPR-Z0-9]` (uppercase
letters excluding I, O, Q, and digits). -/
def vinCharOk (c : Char) : Bool :=
  (('A' ≤ c && c ≤ 'Z') && !(c = 'I' || c = 'O' || c = 'Q')) || c.isDigit

/-- The test `/^[A-HJ-NPR-Z0-9]{17}$/.test(s)`. -/
def vinRegexOk (s : String) : Bool :=
  s.length == 17 && s.data.all vinCharOk

/-- Outcome of the VIN validation prologue shared by `handleVinDecode` and
`handleVinLookup`: either an `invalid_vin` rejection (raised before any
network activity) or the uppercased VIN handed to the external decode
adapter. -/
inductive VinAction where
  | invalid (message : String)
  | callAdapter (vinUpper : String)
deriving DecidableEq

/-- Lines 250-259 / 280-289 of the function: reject when the VIN is falsy
or not 17 characters long, then uppercase and reject when the character
class test fails, otherwise proceed to the adapter call. -/
def vinValidate (vin : String) : VinAction :=
  if vin = "" || vin.length != 17 then
    .invalid "VIN must be exactly 17 characters"
  else
    let vinUpper := jsToUpper vin
    if !vinRegexOk vinUpper then
      .invalid "VIN contains invalid characters"
    else
      .callAdapter vinUpper

/-! ## NHTSA decode (`decodeVinWithNHTSA`) -/

/-- One entry of the adapter's flat `Results` list: a variable name and a
nullable string value. -/
structure NhtsaResult where
  varName : String
  value : Option String
deriving DecidableEq

/-- `getValue`: find the entry by variable name; `result?.Value || null`
turns a missing entry, a null value, or an empty string into `null`. -/
def getValue (results : List NhtsaResult) (name : String) : Option String :=
  match results.find? (fun r => r.varName == name) with
  | none => none
  | some r =>
    match r.value with
    | none => none
    | some v => if v = "" then none else some v

/-- `getNumericValue`: the tolerant numeric parser; a missing value or a
`parseInt` failure yields `null`. -/
def getNumericValue (results : List NhtsaResult) (name : String) : Option Int :=
  match getValue results name with
  | none => none
  | some v => jsParseInt v

structure EngineInfo where
  cylinders : Option Int
  displacement : Option String
  horsepower : Option Int
  fuel_type : Option String
deriving DecidableEq

structure DecodedVin where
  vin : String
  year : Option Int
  make : Option String
  model : Option String
  trim : Option String
  body_type : Option String
  vehicle_type : Option String
  doors : Option Int
  engine : EngineInfo
  drivetrain : Option String
  transmission : Option String
  manufacturer : Option String
  plant_country : Option String
  plant_city : Option String
  error_code : Option String
  error_text : Option String
deriving DecidableEq

/-- The mapping from the adapter's variable/value list to the structured
descriptor (lines 221-243). -/
def decodeVinFromResults (vin : String) (results : List NhtsaResult) : DecodedVin where
  vin := vin
  year := getNumericValue results "Model Year"
  make := getValue results "Make"
  model := getValue results "Model"
  trim := getValue results "Trim"
  body_type := getValue results "Body Class"
  vehicle_type := getValue results "Vehicle Type"
  doors := getNumericValue results "Doors"
  engine := {
    cylinders := getNumericValue results "Engine Number of Cylinders"
    displacement := getValue results "Displacement (L)"
    horsepower := getNumericValue results "Engine Brake (hp) From"
    fuel_type := getValue results "Fuel Type - Primary" }
  drivetrain := getValue results "Drive Type"
  transmission := getValue results "Transmission Style"
  manufacturer := getValue results "Manufacturer Name"
  plant_country := getValue results "Plant Country"
  plant_city := getValue results "Plant City"
  error_code := getValue results "Error Code"
  error_text := getValue results "Error Text"

/-- Success payload of `/vehicles/decode/:vin`: the decoded descriptor,
plus the `warning` field the handler spreads in when the adapter reported
a non-zero error code. -/
structure DecodePayload where
  decoded : DecodedVin
  warning : Option String
deriving DecidableEq

/-- Lines 264-273: `if (decoded.error_code && decoded.error_code !== '0')`
returns the data together with a `warning` carrying the adapter's error
text; otherwise the data alone.  Both branches are successes. -/
def vinDecodeRespond (decoded : DecodedVin) : Resp DecodePayload :=
  match decoded.error_code with
  | some c =>
    if c ≠ "" && c ≠ "0" then .success ⟨decoded, decoded.error_text⟩
    else .success ⟨decoded, none⟩
  | none => .success ⟨decoded, none⟩

/-- Outcome of the external adapter call: the parsed `Results` list, or a
transport/HTTP failure (which the handler catches and converts to an
internal error). -/
inductive AdapterOutcome where
  | ok (results : List NhtsaResult)
  | failure
deriving DecidableEq

/-- `handleVinDecode`, with the network modeled as a function from the
normalized VIN to an adapter outcome.  The second component records
whether the adapter was contacted at all. -/
def handleVinDecode (vin : String) (adapter : String → AdapterOutcome) :
    Resp DecodePayload × Bool :=
  match vinValidate vin with
  | .invalid m => (.apiError "invalid_vin" m, false)
  | .callAdapter vinUpper =>
    match adapter vinUpper with
    | .failure => (.internalError, true)
    | .ok results => (vinDecodeRespond (decodeVinFromResults vinUpper results), true)

/-! ## Spec resolution (`handleVinLookup`, lines 301-338) -/

/-- A `vehicle_specs` row, restricted to the columns the resolution logic
inspects. -/
structure VehicleSpecRow where
  id : Nat
  year : Int
  make : String
  model : String
  trim : Option String
deriving DecidableEq

/-- Lines 310-311 / 353-354: NHTSA often returns slash-separated trim
alternatives such as "EX-L/EX-L Navi"; the primary trim is the first
segment, whitespace-trimmed. -/
def primaryTrim (t : String) : String :=
  jsTrim ((jsSplitOnChar '/' t).headD t)

/-- Line 302: `decoded.model.replace` of every hyphen by `'%'` — hyphens
become `LIKE` wildcards so that "CR-V" also matches "CR V". -/
def modelPattern (model : String) : String :=
  String.mk (model.data.map (fun c => if c = '-' then '%' else c))

/-- The year/make/model filters shared by both resolution strategies:
`ilike(make)`, `ilike(model, modelPattern)`, `eq(year)`. -/
def specBaseMatch (r : VehicleSpecRow) (year : Int) (make mdlPat : String) : Bool :=
  r.year == year && ilikeMatches r.make make && ilikeMatches r.model mdlPat

/-- The trim-specific strategy adds `ilike(trim, primaryTrim + '%')`; a
null trim column never matches an `ILIKE` filter. -/
def specTrimMatch (r : VehicleSpecRow) (year : Int) (make mdlPat pt : String) : Bool :=
  specBaseMatch r year make mdlPat &&
    (match r.trim with
     | some t => ilikeMatches t (pt ++ "%")
     | none => false)

/-- Lines 306-338: try the trim-specific strategy first (`limit(1).single()`
with the error discarded, i.e. the head of the matching rows); when it
yields no row, retry the same year/make/model query without the trim
constraint.  Zero matches overall is the normal value `none`. -/
def resolveSpec (db : List VehicleSpecRow) (year : Int) (make model : String)
    (trim : Option String) : Option VehicleSpecRow :=
  match
    (match trim with
     | some t =>
       (db.filter
         (fun r => specTrimMatch r year make (modelPattern model) (primaryTrim t))).head?
     | none => none) with
  | some s => some s
  | none => (db.filter (fun r => specBaseMatch r year make (modelPattern model))).head?

/-! ## Warranty endpoint (`handleWarranty`, lines 555-580) -/

/-- The UUID shape test `/^[0-9a-f]{8}-[0-9a-f]{4}-[0-9a-f]{4}-[0-9a-f]{4}-[0-9a-f]{12}$/i`. -/
def isHexChar (c : Char) : Bool :=
  c.isDigit || ('a' ≤ c && c ≤ 'f') || ('A' ≤ c && c ≤ 'F')

def isUuid (s : String) : Bool :=
  match jsSplitOnChar '-' s with
  | [a, b, c, d, e] =>
    a.length == 8 && b.length == 4 && c.length == 4 && d.length == 4 &&
      e.length == 12 && (a ++ b ++ c ++ d ++ e).data.all isHexChar
  | _ => false

/-- A `vehicle_warranties` row; only the linking key matters to the
handler, the remaining columns are carried opaquely. -/
structure WarrantyRow where
  vehicle_spec_id : String
  warranty_type : Option String
  months : Option Int
  miles : Option Int
deriving DecidableEq

/-- `handleWarranty`: reject non-UUID ids, surface store errors as
internal errors, and return `notFoundResponse` when the warranty list is
empty — the handler never consults `vehicle_specs` at all. -/
def handleWarranty (vehicleId : String)
    (queryResult : Except DbError (List WarrantyRow)) : Resp (List WarrantyRow) :=
  if !isUuid vehicleId then
    .apiError "invalid_params" "Vehicle ID must be a valid UUID"
  else
    match queryResult with
    | .error _ => .internalError
    | .ok warranties =>
      if warranties.isEmpty then
        .notFound "No warranty information found for this vehicle"
      else .success warranties

/-! ## Market values (`formatMarketValues` and `handleMarketValue`) -/

/-- A `vehicle_market_values` row, restricted to the fields
`formatMarketValues` copies; the cents columns are nullable. -/
structure MarketValueRow where
  condition : String
  trade_in_cents : Option Int
  private_party_cents : Option Int
  dealer_retail_cents : Option Int
deriving DecidableEq

/-- The per-condition value set built by `formatMarketValues`. -/
structure ValueSet where
  condition : String
  trade_in_cents : Option Int
  private_party_cents : Option Int
  dealer_retail_cents : Option Int
deriving DecidableEq

/-- JavaScript object assignment `result[v.condition] = ...`: an existing
key keeps its position and its value is overwritten; a new key is appended
in insertion order. -/
def upsertEntry (m : List (String × ValueSet)) (k : String) (v : ValueSet) :
    List (String × ValueSet) :=
  if m.any (fun p => p.1 == k) then
    m.map (fun p => if p.1 == k then (k, v) else p)
  else m ++ [(k, v)]

/-- Lines 1092-1103: build the condition-keyed map; a later row with the
same condition overwrites the earlier one. -/
def formatMarketValues (values : List MarketValueRow) : List (String × ValueSet) :=
  values.foldl
    (fun acc v =>
      upsertEntry acc v.condition
        ⟨v.condition, v.trade_in_cents, v.private_party_cents, v.dealer_retail_cents⟩)
    []

/-- Line 630: `Math.round(mileageDiff * -0.10 * 100)`.  The JavaScript
computation is double-precision, but for every mileage difference `d` of
realistic magnitude (|d| well below 2^47) the accumulated relative error
is below one half, so `Math.round` lands exactly on the rational value
modeled here. -/
def mileageAdjustmentCents (currentYear vehicleYear actualMileage : Int) : Int :=
  let vehicleAge := currentYear - vehicleYear
  let expectedMileage := vehicleAge * 12000
  let mileageDiff := actualMileage - expectedMileage
  round ((mileageDiff : ℚ) * (-1 / 10) * 100)

/-- The adjustment formula exactly as the specification document states it:
`adjustment_cents = round((actual_mileage - expected_mileage) * -0.10)`.
Stated from the spec's words only, for comparison with
`mileageAdjustmentCents`, which is the formula the source computes. -/
def specStatedAdjustmentCents (currentYear vehicleYear actualMileage : Int) : Int :=
  round (((actualMileage - (currentYear - vehicleYear) * 12000 : Int) : ℚ) * (-1 / 10))

/-- Lines 634-636: `if (conditionData.X_cents) conditionData.X_cents += adjustment`
— the field is adjusted only when truthy, so `null` and exactly-zero
amounts pass through unchanged. -/
def adjustCents (v : Option Int) (adj : Int) : Option Int :=
  match v with
  | some n => if n ≠ 0 then some (n + adj) else some n
  | none => none

def adjustValueSet (vs : ValueSet) (adj : Int) : ValueSet :=
  { vs with
    trade_in_cents := adjustCents vs.trade_in_cents adj
    private_party_cents := adjustCents vs.private_party_cents adj
    dealer_retail_cents := adjustCents vs.dealer_retail_cents adj }

/-- Lines 632-637: the loop over `Object.keys(result)` applies the same
adjustment to every condition entry. -/
def applyMileageAdjustment (m : List (String × ValueSet)) (adj : Int) :
    List (String × ValueSet) :=
  m.map (fun p => (p.1, adjustValueSet p.2 adj))

/-- The formatting tail of `handleMarketValue` (lines 621-640): format the
queried rows, then, when a mileage was supplied (`if (mileage && specs.year)`;
the mileage parameter here is the already-parsed value of a numeric query
string, and a zero spec year is falsy), apply the mileage adjustment. -/
def handleMarketValueResult (values : List MarketValueRow) (mileage : Option Int)
    (currentYear specYear : Int) : List (String × ValueSet) :=
  let result := formatMarketValues values
  match mileage with
  | none => result
  | some m =>
    if specYear ≠ 0 then
      applyMileageAdjustment result (mileageAdjustmentCents currentYear specYear m)
    else result

/-! ## Maintenance (`handleMaintenance`, lines 643-685) -/

/-- The columns of `vehicle_specs` the dependent handlers select
(`year, make, model, trim`). -/
structure SpecInfo where
  year : Int
  make : String
  model : String
  trim : Option String
deriving DecidableEq

/-- A `vehicle_maintenance_schedules` row, restricted to the columns the
query filters and orders on plus an opaque description. -/
structure MaintRow where
  year : Int
  make : String
  model : String
  trim : Option String
  mileage : Int
  service : String
deriving DecidableEq

/-- The row filters of the maintenance query: `eq(year)`, `ilike(make)`,
`ilike(model)` and, when the spec's trim is truthy (non-null, non-empty),
the partial `ilike(trim, specs.trim + '%')`. -/
def maintRowMatch (r : MaintRow) (specs : SpecInfo) : Bool :=
  r.year == specs.year && ilikeMatches r.make specs.make &&
    ilikeMatches r.model specs.model &&
    (match specs.trim with
     | some t =>
       if t = "" then true
       else
         match r.trim with
         | some rt => ilikeMatches rt (t ++ "%")
         | none => false
     | none => true)

/-- The maintenance query (lines 659-677): filter the table, apply the
`gte('mileage', current_mileage)` filter when the parameter was supplied
(already parsed here), order ascending by mileage, and `limit(50)`.  SQL
applies filters before ordering and limiting regardless of builder call
order. -/
def maintFiltered (db : List MaintRow) (specs : SpecInfo)
    (currentMileage : Option Int) : List MaintRow :=
  match currentMileage with
  | some cm =>
    (db.filter (fun r => maintRowMatch r specs)).filter
      (fun (r : MaintRow) => cm ≤ r.mileage)
  | none => db.filter (fun r => maintRowMatch r specs)

def handleMaintenanceRows (db : List MaintRow) (specs : SpecInfo)
    (currentMileage : Option Int) : List MaintRow :=
  ((maintFiltered db specs currentMileage).mergeSort
    (fun a b => a.mileage ≤ b.mileage)).take 50

/-! ## Vehicle search (`handleVehicleSearch`, lines 937-1086) -/

/-- The pre-database part of `handleVehicleSearch`: either an immediate
`invalid_params` rejection, or the normalized query together with the
extracted year filter and text tokens with which the handler proceeds to
the cache and then the store. -/
inductive SearchAction where
  | reject (code : String) (message : String)
  | proceed (normalizedQuery : String) (yearFilter : Option Int) (textTokens : List String)
deriving DecidableEq

/-- Lines 966-973, the classification of one token: `parseInt`, then
`token.length === 4 && !isNaN(numVal) && numVal >= 1990 && numVal <= 2030`
makes it the year filter. -/
def isYearToken (token : String) : Option Int :=
  match jsParseInt token with
  | some n => if token.length = 4 ∧ 1990 ≤ n ∧ n ≤ 2030 then some n else none
  | none => none

/-- One iteration of the token loop: a year token replaces the year
filter; otherwise a token of length at least 2 is appended to the text
tokens; shorter tokens are dropped. -/
def tokenStep (acc : Option Int × List String) (token : String) :
    Option Int × List String :=
  match isYearToken token with
  | some n => (some n, acc.2)
  | none => if 2 ≤ token.length then (acc.1, acc.2 ++ [token]) else acc

/-- Lines 960-973: split the normalized query on whitespace and fold the
token classification over the tokens. -/
def tokenizeQuery (nq : String) : Option Int × List String :=
  (jsSplitWs nq).foldl tokenStep (none, [])

/-- Lines 938-973: the query string is `q || query || ''`; it is rejected
with `invalid_params` when falsy or shorter than 2 characters — before
trimming, and before any cache or database access; only then is it

trimmed, lowercased and tokenized. -/
def handleVehicleSearchPre (q query : Option String) : SearchAction :=
  let qs := orStr q (orStr query "")
  if qs = "" || qs.length < 2 then
    .reject "invalid_params" "Search query must be at least 2 characters"
  else
    let nq := jsToLower (jsTrim qs)
    let t := tokenizeQuery nq
    .proceed nq t.1 t.2

/-- A row of the `vehicle_autocomplete` aggregate view. -/
structure AutoRow where
  year : Int
  make : String
  model : String
  display_text : String
  sample_vin : Option String
deriving DecidableEq

/-- A `vehicle_specs` row as selected by the search fallback query. -/
structure SpecSearchRow where
  id : Nat
  year : Int
  make : String
  model : String
  trim : Option String
  sample_vin : Option String
deriving DecidableEq

/-- Lines 1016 / 1022: the aggregate view is considered missing exactly on
the PostgreSQL error `42P01` or the PostgREST error `PGRST205`. -/
def isRelationMissing (e : DbError) : Bool :=
  e.code == "42P01" || e.code == "PGRST205"

/-- The deduplication key of the fallback path (line 1056). -/
def searchKey (v : SpecSearchRow) : String :=
  toString v.year ++ "-" ++ v.make ++ "-" ++ v.model

/-- One step of the fallback deduplication loop (lines 1055-1068): skip
once `limit` results are collected (the source breaks out of the loop,
which produces the same output), skip seen keys, otherwise record the key
and emit the autocomplete-shaped record. -/
def dedupSearchStep (limit : Nat) (acc : List String × List AutoRow)
    (v : SpecSearchRow) : List String × List AutoRow :=
  if limit ≤ acc.2.length then acc
  else if acc.1.contains (searchKey v) then acc
  else
    (acc.1 ++ [searchKey v],
     acc.2 ++ [⟨v.year, v.make, v.model,
                toString v.year ++ " " ++ v.make ++ " " ++ v.model, v.sample_vin⟩])

def dedupSearchRows (rows : List SpecSearchRow) (limit : Nat) : List AutoRow :=
  (rows.foldl (dedupSearchStep limit) ([], [])).2

/-- The source-selection logic of `handleVehicleSearch` (lines 1010-1074):
serve the aggregate view's rows on success; on an aggregate failure, fall
back to the raw `vehicle_specs` query only when the error is of the
relation-missing class, surfacing every other failure as an internal
error; a failing fallback is an internal error too. -/
def handleSearchCompute (agg : Except DbError (List AutoRow))
    (fb : Except DbError (List SpecSearchRow)) (limit : Nat) : Resp (List AutoRow) :=
  match agg with
  | .ok rows => .success rows
  | .error e =>
    if isRelationMissing e then
      match fb with
      | .error _ => .internalError
      | .ok rows => .success (dedupSearchRows rows limit)
    else .internalError

/-! ## Cached make listing (`handleMakes`, lines 687-760) -/

/-- `[...new Set(arr)]`: first-occurrence-preserving deduplication. -/
def dedupFirst (l : List String) : List String :=
  l.foldl (fun acc x => if acc.contains x then acc else acc ++ [x]) []

/-- Lexicographic order on character lists, the comparison
`Array.prototype.sort()` applies to strings. -/
def charListLe : List Char → List Char → Bool
  | [], _ => true
  | _ :: _, [] => false
  | a :: as, b :: bs => if a = b then charListLe as bs else decide (a < b)

/-- Insert a string into an ascending list, keeping it ascending. -/
def insertAsc (x : String) : List String → List String
  | [] => [x]
  | y :: ys => if charListLe x.data y.data then x :: y :: ys else y :: insertAsc x ys

/-- JavaScript `Array.prototype.sort()` on strings: ascending lexicographic
order (modeled as an insertion sort, which computes the same ascending
arrangement). -/
def jsSortStrings (l : List String) : List String :=
  l.foldr insertAsc []

/-- The source-selection logic of the year-filtered branch of `handleMakes`
(lines 704-727), with rows abstracted to their `make` column: on success
the view's rows are served as they are; on any view error — the condition
is just `if (error)`, with no inspection of the error code — the raw
`vehicle_specs` fallback runs, and only a failure of the fallback itself
reaches the caller as an internal error. -/
def handleMakesYearCompute (agg : Except DbError (List String))
    (fb : Except DbError (List String)) : Resp (List String) :=
  match agg with
  | .ok rows => .success rows
  | .error _ =>
    match fb with
    | .error _ => .internalError
    | .ok rows => .success (jsSortStrings (dedupFirst rows))

/-! ## Helper lemmas -/

lemma likeMatch_percent_nil : ∀ s : List Char, likeMatch ['%'] s = true
  | [] => by simp [likeMatch]
  | c :: cs => by
    simp only [likeMatch, if_pos rfl]
    rw [likeMatch_percent_nil cs]
    simp [likeMatch]

/-- A wildcard-free pattern followed by a single `%` matches exactly the
strings extending the pattern. -/
lemma likeMatch_plain_append_percent :
    ∀ (p s : List Char), (∀ c ∈ p, c ≠ '%' ∧ c ≠ '_') →
      likeMatch (p ++ ['%']) s = p.isPrefixOf s
  | [], s, _ => by
    simp [likeMatch_percent_nil, List.isPrefixOf]
  | a :: ps, [], hp => by
    have ha := hp a (by simp)
    simp [likeMatch, List.isPrefixOf, ha.1]
  | a :: ps, c :: cs, hp => by
    have ha := hp a (by simp)
    have ih := likeMatch_plain_append_percent ps cs (fun x hx => hp x (by simp [hx]))
    simp only [List.cons_append, likeMatch, if_neg ha.1, List.isPrefixOf, ih]
    by_cases hac : a = c
    · simp [hac, ha.2]
    · have : (a == c) = false := by simp [hac]
      simp [hac, ha.2, this]

lemma digitVal_le_nine {c : Char} (h : c.isDigit = true) : digitVal c ≤ 9 := by
  have h57 : c.toNat ≤ 57 := by
    simp only [Char.isDigit, Bool.and_eq_true, decide_eq_true_eq] at h
    exact h.2
  simp only [digitVal]
  omega

lemma decDigitsVal_go_lt :
    ∀ (cs : List Char) (a : Nat), (∀ c ∈ cs, c.isDigit = true) →
      cs.foldl (fun a c => a * 10 + digitVal c) a < (a + 1) * 10 ^ cs.length
  | [], a, _ => by simp
  | c :: cs, a, h => by
    have hc := digitVal_le_nine (h c (by simp))
    have ih := decDigitsVal_go_lt cs (a * 10 + digitVal c)
      (fun x hx => h x (by simp [hx]))
    calc (c :: cs).foldl (fun a c => a * 10 + digitVal c) a
        = cs.foldl (fun a c => a * 10 + digitVal c) (a * 10 + digitVal c) := by
          simp [List.foldl]
      _ < (a * 10 + digitVal c + 1) * 10 ^ cs.length := ih
      _ ≤ ((a + 1) * 10) * 10 ^ cs.length := by nlinarith
      _ = (a + 1) * 10 ^ (c :: cs).length := by ring_nf; simp [pow_succ]; ring

/-- The decimal value of at most `k` digit characters is below `10 ^ k`. -/
lemma decDigitsVal_lt (cs : List Char) (h : ∀ c ∈ cs, c.isDigit = true) :
    decDigitsVal cs < 10 ^ cs.length := by
  have := decDigitsVal_go_lt cs 0 h
  simpa [decDigitsVal] using this

lemma takeWhile_length_eq_all {α : Type} (p : α → Bool) :
    ∀ l : List α, (l.takeWhile p).length = l.length → ∀ a ∈ l, p a = true
  | [], _, a, ha => by cases ha
  | x :: xs, h, a, ha => by
    by_cases hx : p x = true
    · rw [List.takeWhile_cons, if_pos hx] at h
      simp only [List.length_cons, Nat.add_right_cancel_iff] at h
      rcases List.mem_cons.mp ha with rfl | hmem
      · exact hx
      · exact takeWhile_length_eq_all p xs h a hmem
    · rw [List.takeWhile_cons, if_neg hx] at h
      simp at h

lemma getValue_ne_empty {results : List NhtsaResult} {name v : String}
    (h : getValue results name = some v) : v ≠ "" := by
  unfold getValue at h
  rcases hf : results.find? (fun r => r.varName == name) with _ | r
  · rw [hf] at h; cases h
  · rw [hf] at h
    dsimp only at h
    rcases hv : r.value with _ | w
    · rw [hv] at h; cases h
    · rw [hv] at h
      dsimp only at h
      by_cases hw : w = ""
      · rw [if_pos hw] at h; cases h
      · rw [if_neg hw] at h
        cases h
        exact hw

lemma tokenize_foldl_textTokens :
    ∀ (ts : List String) (acc : Option Int × List String),
      (ts.foldl tokenStep acc).2 =
        acc.2 ++ ts.filter (fun t => (isYearToken t).isNone && 2 ≤ t.length)
  | [], acc => by simp
  | t :: ts, acc => by
    rw [List.foldl_cons, tokenize_foldl_textTokens ts (tokenStep acc t)]
    rcases hy : isYearToken t with _ | n
    · by_cases hl : 2 ≤ t.length
      · simp [tokenStep, hy, hl, List.filter_cons]
      · simp [tokenStep, hy, hl, List.filter_cons]
    · simp [tokenStep, hy, List.filter_cons]

lemma forall₂_map_self {α β : Type} (f : α → β) (R : α → β → Prop) :
    ∀ l : List α, (∀ a ∈ l, R a (f a)) → List.Forall₂ R l (l.map f)
  | [], _ => List.Forall₂.nil
  | a :: as, h =>
    List.Forall₂.cons (h a (by simp))
      (forall₂_map_self f R as (fun x hx => h x (by simp [hx])))

lemma adjustCents_of_zero_or_none {v : Option Int} (adj : Int)
    (h : v = some 0 ∨ v = none) : adjustCents v adj = v := by
  rcases h with rfl | rfl <;> simp [adjustCents]

lemma adjustCents_of_nonzero {n : Int} (adj : Int) (h : n ≠ 0) :
    adjustCents (some n) adj = some (n + adj) := by
  simp [adjustCents, h]

/-! ## Claim theorems -/

/-- C4: every input string that does not match `[A-HJ-NPR-Z0-9]{17}` after
uppercase normalization (in particular any string whose length is not 17)
makes `decode` return the `invalid_vin` error, and no call to the external
decode adapter is made. -/
theorem vin_decode_invalid_vin_no_network (vin : String)
    (adapter : String → AdapterOutcome)
    (h : vinRegexOk (jsToUpper vin) = false) :
    (handleVinDecode vin adapter).2 = false ∧
      ∃ m, (handleVinDecode vin adapter).1 = Resp.apiError "invalid_vin" m := by
  by_cases hl : (vin = "" || vin.length != 17) = true
  · refine ⟨?_, "VIN must be exactly 17 characters", ?_⟩ <;>
      simp [handleVinDecode, vinValidate, hl]
  · refine ⟨?_, "VIN contains invalid characters", ?_⟩ <;>
      simp [handleVinDecode, vinValidate, hl, h]

theorem vin_decode_invalid_vin_no_network_witness :
    vinRegexOk (jsToUpper "ABC") = false ∧
      (handleVinDecode "ABC" (fun _ => AdapterOutcome.failure)).2 = false ∧
      ∃ m, (handleVinDecode "ABC" (fun _ => AdapterOutcome.failure)).1 =
        Resp.apiError "invalid_vin" m :=
  ⟨by decide,
    (vin_decode_invalid_vin_no_network "ABC" (fun _ => AdapterOutcome.failure)
      (by decide)).1,
    (vin_decode_invalid_vin_no_network "ABC" (fun _ => AdapterOutcome.failure)
      (by decide)).2⟩

/-- C5: when the adapter call succeeds and the decoded error code is
non-null and different from "0", the decode endpoint still answers with a
success carrying the decoded data, annotated with a `warning` equal to the
adapter's error text — never a hard failure. -/
theorem vin_decode_warning_on_nonzero_error_code (vin vinUpper : String)
    (adapter : String → AdapterOutcome) (results : List NhtsaResult) (c : String)
    (hv : vinValidate vin = VinAction.callAdapter vinUpper)
    (ha : adapter vinUpper = AdapterOutcome.ok results)
    (hc : (decodeVinFromResults vinUpper results).error_code = some c)
    (h0 : c ≠ "0") :
    (handleVinDecode vin adapter).1 =
      Resp.success ⟨decodeVinFromResults vinUpper results,
        (decodeVinFromResults vinUpper results).error_text⟩ := by
  have hc2 : getValue results "Error Code" = some c := hc
  have hne : c ≠ "" := getValue_ne_empty hc2
  unfold handleVinDecode
  rw [hv]
  dsimp only
  rw [ha]
  dsimp only
  unfold vinDecodeRespond
  rw [hc]
  dsimp only
  rw [if_pos (by simp [hne, h0])]

theorem vin_decode_warning_on_nonzero_error_code_witness :
    (handleVinDecode "1HGCM82633A004352"
        (fun _ => AdapterOutcome.ok
          [⟨"Error Code", some "6"⟩, ⟨"Error Text", some "Incomplete VIN"⟩])).1 =
      Resp.success
        ⟨decodeVinFromResults "1HGCM82633A004352"
            [⟨"Error Code", some "6"⟩, ⟨"Error Text", some "Incomplete VIN"⟩],
          (decodeVinFromResults "1HGCM82633A004352"
            [⟨"Error Code", some "6"⟩, ⟨"Error Text", some "Incomplete VIN"⟩]).error_text⟩ :=
  vin_decode_warning_on_nonzero_error_code "1HGCM82633A004352" "1HGCM82633A004352"
    (fun _ => AdapterOutcome.ok
      [⟨"Error Code", some "6"⟩, ⟨"Error Text", some "Incomplete VIN"⟩])
    [⟨"Error Code", some "6"⟩, ⟨"Error Text", some "Incomplete VIN"⟩] "6"
    (by decide) rfl (by decide) (by decide)

/-- C3: the primary trim is the first slash-separated segment
("EX-L/EX-L Navi" resolves to "EX-L"); the trim-specific strategy matches
the trim column by case-insensitive prefix (not exact equality) against
the primary trim; when that strategy yields zero rows the same
year/make/model query is retried without the trim constraint; and zero
matches overall is the normal value `none`, never an exception. -/
theorem vin_lookup_trim_resolution (db : List VehicleSpecRow) (year : Int)
    (make model t : String) :
    primaryTrim "EX-L/EX-L Navi" = "EX-L" ∧
    (∀ s : String, plainPattern (jsToLower (primaryTrim t)) = true →
      ilikeMatches s (primaryTrim t ++ "%") =
        (jsToLower (primaryTrim t)).data.isPrefixOf (jsToLower s).data) ∧
    (db.filter
        (fun r => specTrimMatch r year make (modelPattern model) (primaryTrim t)) = [] →
      resolveSpec db year make model (some t) = resolveSpec db year make model none) ∧
    (db.filter (fun r => specBaseMatch r year make (modelPattern model)) = [] →
      resolveSpec db year make model (some t) = none ∧
      resolveSpec db year make model none = none) := by
  refine ⟨by decide, ?_, ?_, ?_⟩
  · intro s hplain
    have hdata : (jsToLower (primaryTrim t ++ "%")).data =
        (jsToLower (primaryTrim t)).data ++ ['%'] := by
      simp only [jsToLower, String.data_append]
      show ((primaryTrim t).data ++ ['%']).map Char.toLower =
        (primaryTrim t).data.map Char.toLower ++ ['%']
      rw [List.map_append]
      rfl
    have hwild : ∀ c ∈ (jsToLower (primaryTrim t)).data, c ≠ '%' ∧ c ≠ '_' := by
      intro c hc
      have := (List.all_eq_true.mp hplain) c hc
      simpa using this
    unfold ilikeMatches
    rw [hdata]
    exact likeMatch_plain_append_percent _ _ hwild
  · intro hempty
    unfold resolveSpec
    dsimp only
    rw [hempty]
    rfl
  · intro hbase
    have htrim : db.filter
        (fun r => specTrimMatch r year make (modelPattern model) (primaryTrim t)) = [] := by
      rw [List.filter_eq_nil_iff]
      intro r hr
      have hb := (List.filter_eq_nil_iff.mp hbase) r hr
      intro hcontra
      apply hb
      have h2 := hcontra
      simp only [specTrimMatch, Bool.and_eq_true] at h2
      exact h2.1
    constructor
    · unfold resolveSpec
      dsimp only
      rw [htrim, hbase]
      rfl
    · unfold resolveSpec
      dsimp only
      rw [hbase]
      rfl

theorem vin_lookup_trim_resolution_witness :
    primaryTrim "EX-L/EX-L Navi" = "EX-L" ∧
    ilikeMatches "EX-L Navi" (primaryTrim "EX-L/EX-L Navi" ++ "%") =
      (jsToLower (primaryTrim "EX-L/EX-L Navi")).data.isPrefixOf
        (jsToLower "EX-L Navi").data ∧
    resolveSpec [] 2003 "Honda" "Accord" (some "EX-L/EX-L Navi") =
      resolveSpec [] 2003 "Honda" "Accord" none ∧
    resolveSpec [] 2003 "Honda" "Accord" (some "EX-L/EX-L Navi") = none :=
  ⟨(vin_lookup_trim_resolution [] 2003 "Honda" "Accord" "EX-L/EX-L Navi").1,
    (vin_lookup_trim_resolution [] 2003 "Honda" "Accord" "EX-L/EX-L Navi").2.1
      "EX-L Navi" (by decide),
    (vin_lookup_trim_resolution [] 2003 "Honda" "Accord" "EX-L/EX-L Navi").2.2.1 rfl,
    ((vin_lookup_trim_resolution [] 2003 "Honda" "Accord" "EX-L/EX-L Navi").2.2.2
      rfl).1⟩

/-- C2 counterexample: for a well-formed vehicle id whose warranty query
succeeds with zero rows, the warranty endpoint answers `not_found` — it
does not represent the empty warranty collection as a success, refuting
the claim that zero warranty rows are a normal empty-collection result
(the handler never consults the vehicle spec at all, so this is its answer
even when the spec record exists). -/
theorem warranty_empty_rows_notfound_counterexample :
    handleWarranty "12345678-1234-1234-1234-123456789abc" (Except.ok []) =
      Resp.notFound "No warranty information found for this vehicle" ∧
    ∀ ws : List WarrantyRow,
      handleWarranty "12345678-1234-1234-1234-123456789abc" (Except.ok []) ≠
        Resp.success ws := by
  have h1 : handleWarranty "12345678-1234-1234-1234-123456789abc" (Except.ok []) =
      Resp.notFound "No warranty information found for this vehicle" := by decide
  exact ⟨h1, fun ws hw => by rw [h1] at hw; cases hw⟩

/-- C2 amended: for every valid (UUID-shaped) vehicle id, the warranty
endpoint returns `not_found` whenever the warranty query yields zero rows
— even when the vehicle spec exists, since the handler never looks the
spec up — returns the rows as a success when there is at least one, and
surfaces a query failure as an internal error. -/
theorem warranty_endpoint_behavior (vehicleId : String)
    (h : isUuid vehicleId = true) :
    handleWarranty vehicleId (Except.ok []) =
      Resp.notFound "No warranty information found for this vehicle" ∧
    (∀ ws : List WarrantyRow, ws ≠ [] →
      handleWarranty vehicleId (Except.ok ws) = Resp.success ws) ∧
    (∀ e : DbError, handleWarranty vehicleId (Except.error e) = Resp.internalError) := by
  refine ⟨?_, ?_, ?_⟩
  · simp [handleWarranty, h]
  · intro ws hws
    simp [handleWarranty, h, List.isEmpty_iff, hws]
  · intro e
    simp [handleWarranty, h]

theorem warranty_endpoint_behavior_witness :
    handleWarranty "12345678-1234-1234-1234-123456789abc"
        (Except.ok [⟨"12345678-1234-1234-1234-123456789abc", some "basic", some 36, some 36000⟩]) =
      Resp.success [⟨"12345678-1234-1234-1234-123456789abc", some "basic", some 36, some 36000⟩] :=
  (warranty_endpoint_behavior "12345678-1234-1234-1234-123456789abc" (by decide)).2.1
    [⟨"12345678-1234-1234-1234-123456789abc", some "basic", some 36, some 36000⟩]
    (by decide)

/-- C1 counterexample: with vehicle year 2021, current year 2026 and
actual mileage 61000 (1000 miles over the 60000 expected), the
specification's formula `round((actual - expected) * -0.10)` gives -100
cents, but the code adds `Math.round(diff * -0.10 * 100) = -10000` cents:
the single condition's trade-in value drops from 10000 to 0 cents, not to
the 9900 cents the claimed formula demands. -/
theorem mileage_adjustment_formula_counterexample :
    specStatedAdjustmentCents 2026 2021 61000 = -100 ∧
    mileageAdjustmentCents 2026 2021 61000 = -10000 ∧
    handleMarketValueResult [⟨"Clean", some 10000, none, none⟩]
        (some 61000) 2026 2021 =
      [("Clean", ⟨"Clean", some 0, none, none⟩)] ∧
    (10000 : Int) + specStatedAdjustmentCents 2026 2021 61000 = 9900 ∧
    some (0 : Int) ≠ some (9900 : Int) := by
  have h1 : specStatedAdjustmentCents 2026 2021 61000 = -100 := by
    unfold specStatedAdjustmentCents
    norm_num [round_eq]
  have h2 : mileageAdjustmentCents 2026 2021 61000 = -10000 := by
    unfold mileageAdjustmentCents
    norm_num [round_eq]
  refine ⟨h1, h2, ?_, by rw [h1]; norm_num, by decide⟩
  unfold handleMarketValueResult
  dsimp only
  rw [if_pos (by decide), h2]
  decide

/-- C1 amended: the adjustment the code adds is
`round((actual - expected) * -0.10 * 100)` cents — that is, -10 cents per
mile of difference, the spec's formula scaled from dollars to cents — and
it is applied additively to each present (truthy) value field of every
condition in the map. -/
theorem mileage_adjustment_scaled_formula (values : List MarketValueRow)
    (m currentYear specYear : Int) (h : specYear ≠ 0) :
    mileageAdjustmentCents currentYear specYear m =
      -10 * (m - (currentYear - specYear) * 12000) ∧
    List.Forall₂
      (fun q p : String × ValueSet =>
        p.1 = q.1 ∧
        p.2.trade_in_cents = adjustCents q.2.trade_in_cents
          (mileageAdjustmentCents currentYear specYear m) ∧
        p.2.private_party_cents = adjustCents q.2.private_party_cents
          (mileageAdjustmentCents currentYear specYear m) ∧
        p.2.dealer_retail_cents = adjustCents q.2.dealer_retail_cents
          (mileageAdjustmentCents currentYear specYear m))
      (formatMarketValues values)
      (handleMarketValueResult values (some m) currentYear specYear) := by
  constructor
  · unfold mileageAdjustmentCents
    dsimp only
    have hq : ((m - (currentYear - specYear) * 12000 : Int) : ℚ) * (-1 / 10) * 100 =
        ((-10 * (m - (currentYear - specYear) * 12000) : ℤ) : ℚ) := by
      push_cast
      ring
    rw [hq, round_intCast]
  · unfold handleMarketValueResult
    dsimp only
    rw [if_pos h]
    exact forall₂_map_self _ _ _ (fun a _ => ⟨rfl, rfl, rfl, rfl⟩)

theorem mileage_adjustment_scaled_formula_witness :
    mileageAdjustmentCents 2026 2021 61000 = -10 * (61000 - (2026 - 2021) * 12000) :=
  (mileage_adjustment_scaled_formula [] 61000 2026 2021 (by decide)).1

/-- C10: in the mileage adjustment, a value field stored as exactly 0
cents or null is returned unchanged (presence is tested by truthiness),
while every non-zero field of the same condition receives the full
adjustment. -/
theorem mileage_adjustment_truthiness_skip (values : List MarketValueRow)
    (m currentYear specYear : Int) (h : specYear ≠ 0) :
    handleMarketValueResult values (some m) currentYear specYear =
      (formatMarketValues values).map
        (fun q => (q.1, adjustValueSet q.2 (mileageAdjustmentCents currentYear specYear m))) ∧
    (∀ v : Option Int, (v = some 0 ∨ v = none) →
      adjustCents v (mileageAdjustmentCents currentYear specYear m) = v) ∧
    (∀ n : Int, n ≠ 0 →
      adjustCents (some n) (mileageAdjustmentCents currentYear specYear m) =
        some (n + mileageAdjustmentCents currentYear specYear m)) := by
  refine ⟨?_, ?_, ?_⟩
  · unfold handleMarketValueResult
    dsimp only
    rw [if_pos h]
    rfl
  · intro v hv
    exact adjustCents_of_zero_or_none _ hv
  · intro n hn
    exact adjustCents_of_nonzero _ hn

theorem mileage_adjustment_truthiness_skip_witness :
    handleMarketValueResult [⟨"Clean", some 0, none, some 5000⟩]
        (some 61000) 2026 2021 =
      [("Clean", adjustValueSet ⟨"Clean", some 0, none, some 5000⟩
        (mileageAdjustmentCents 2026 2021 61000))] ∧
    adjustCents (some 0) (mileageAdjustmentCents 2026 2021 61000) = some 0 ∧
    adjustCents (some 5000) (mileageAdjustmentCents 2026 2021 61000) =
      some (5000 + mileageAdjustmentCents 2026 2021 61000) :=
  ⟨(mileage_adjustment_truthiness_skip [⟨"Clean", some 0, none, some 5000⟩]
      61000 2026 2021 (by decide)).1,
    (mileage_adjustment_truthiness_skip [⟨"Clean", some 0, none, some 5000⟩]
      61000 2026 2021 (by decide)).2.1 (some 0) (Or.inl rfl),
    (mileage_adjustment_truthiness_skip [⟨"Clean", some 0, none, some 5000⟩]
      61000 2026 2021 (by decide)).2.2 5000 (by decide)⟩

/-- C8: the maintenance schedule returned is sorted ascending by mileage,
contains only items with mileage at least the supplied current mileage,
and never holds more than 50 entries however many items qualify. -/
theorem maintenance_filter_sort_cap (db : List MaintRow) (specs : SpecInfo)
    (currentMileage : Option Int) :
    List.Pairwise (fun a b : MaintRow => a.mileage ≤ b.mileage)
      (handleMaintenanceRows db specs currentMileage) ∧
    (∀ n : Int, currentMileage = some n →
      ∀ r ∈ handleMaintenanceRows db specs currentMileage, n ≤ r.mileage) ∧
    (handleMaintenanceRows db specs currentMileage).length ≤ 50 := by
  refine ⟨?_, ?_, ?_⟩
  · have hs := @List.sorted_mergeSort MaintRow
      (fun a b : MaintRow => decide (a.mileage ≤ b.mileage))
      (fun a b c hab hbc => by
        simp only [decide_eq_true_eq] at *
        exact le_trans hab hbc)
      (fun a b => by
        simp only [Bool.or_eq_true, decide_eq_true_eq]
        exact Int.le_total a.mileage b.mileage)
      (maintFiltered db specs currentMileage)
    have hp : List.Pairwise (fun a b : MaintRow => a.mileage ≤ b.mileage)
        ((maintFiltered db specs currentMileage).mergeSort
          (fun a b => a.mileage ≤ b.mileage)) :=
      hs.imp (fun h => of_decide_eq_true h)
    exact hp.sublist (List.take_sublist _ _)
  · intro n hn r hr
    subst hn
    have hmem := List.mem_mergeSort.mp (List.mem_of_mem_take hr)
    unfold maintFiltered at hmem
    have := (List.mem_filter.mp hmem).2
    exact of_decide_eq_true this
  · rw [handleMaintenanceRows, List.length_take]
    exact min_le_left _ _

theorem maintenance_filter_sort_cap_witness :
    List.Pairwise (fun a b : MaintRow => a.mileage ≤ b.mileage)
      (handleMaintenanceRows
        [⟨2021, "Honda", "Accord", none, 60000, "oil change"⟩,
         ⟨2021, "Honda", "Accord", none, 30000, "tire rotation"⟩]
        ⟨2021, "Honda", "Accord", none⟩ (some 50000)) ∧
    (∀ r ∈ handleMaintenanceRows
        [⟨2021, "Honda", "Accord", none, 60000, "oil change"⟩,
         ⟨2021, "Honda", "Accord", none, 30000, "tire rotation"⟩]
        ⟨2021, "Honda", "Accord", none⟩ (some 50000), (50000 : Int) ≤ r.mileage) ∧
    (handleMaintenanceRows
        [⟨2021, "Honda", "Accord", none, 60000, "oil change"⟩,
         ⟨2021, "Honda", "Accord", none, 30000, "tire rotation"⟩]
        ⟨2021, "Honda", "Accord", none⟩ (some 50000)).length ≤ 50 := by
  have h := maintenance_filter_sort_cap
    [⟨2021, "Honda", "Accord", none, 60000, "oil change"⟩,
     ⟨2021, "Honda", "Accord", none, 30000, "tire rotation"⟩]
    ⟨2021, "Honda", "Accord", none⟩ (some 50000)
  exact ⟨h.1, h.2.1 50000 rfl, h.2.2⟩

/-- A 4-character token whose `parseInt` value reaches 1990 must consist
of decimal digits only, and the parsed value is then its decimal value. -/
lemma jsParseInt_four_digit_large {token : String} {m : Int}
    (hp : jsParseInt token = some m) (hlen : token.length = 4) (hm : 1990 ≤ m) :
    token.data.all Char.isDigit = true ∧ m = (decDigitsVal token.data : Int) := by
  have hdlen : token.data.length = 4 := hlen
  unfold jsParseInt at hp
  rcases hd : token.data with _ | ⟨c, rest⟩
  · rw [hd] at hp
    cases hp
  · rw [hd] at hp
    dsimp only at hp
    rw [hd] at hdlen
    have hrest3 : rest.length = 3 := by simpa using hdlen
    by_cases hminus : c = '-'
    · rw [if_pos hminus] at hp
      by_cases he : (rest.takeWhile Char.isDigit).isEmpty
      · rw [if_pos he] at hp
        cases hp
      · rw [if_neg he] at hp
        cases hp
        exfalso
        have hnn : (0 : Int) ≤ (decDigitsVal (rest.takeWhile Char.isDigit) : Int) :=
          Int.ofNat_nonneg _
        omega
    · rw [if_neg hminus] at hp
      by_cases hplus : c = '+'
      · rw [if_pos hplus] at hp
        by_cases he : (rest.takeWhile Char.isDigit).isEmpty
        · rw [if_pos he] at hp
          cases hp
        · rw [if_neg he] at hp
          cases hp
          exfalso
          have hdig : ∀ a ∈ rest.takeWhile Char.isDigit, Char.isDigit a = true :=
            fun a ha => List.mem_takeWhile_imp ha
          have hlt := decDigitsVal_lt (rest.takeWhile Char.isDigit) hdig
          have hle3 : (rest.takeWhile Char.isDigit).length ≤ 3 :=
            le_trans (List.takeWhile_sublist _).length_le (le_of_eq hrest3)
          have hsmall : decDigitsVal (rest.takeWhile Char.isDigit) < 1000 :=
            lt_of_lt_of_le hlt
              (le_trans (Nat.pow_le_pow_right (by norm_num) hle3) (by norm_num))
          omega
      · rw [if_neg hplus] at hp
        by_cases he : ((c :: rest).takeWhile Char.isDigit).isEmpty
        · rw [if_pos he] at hp
          cases hp
        · rw [if_neg he] at hp
          cases hp
          have hdslen : ((c :: rest).takeWhile Char.isDigit).length ≤ 4 :=
            le_trans (List.takeWhile_sublist _).length_le (le_of_eq hdlen)
          by_cases h4 : ((c :: rest).takeWhile Char.isDigit).length = 4
          · have hall : ∀ a ∈ c :: rest, Char.isDigit a = true :=
              takeWhile_length_eq_all _ _ (by rw [h4, hdlen])
            have heq : (c :: rest).takeWhile Char.isDigit = c :: rest :=
              List.takeWhile_eq_self_iff.mpr hall
            exact ⟨List.all_eq_true.mpr hall, by rw [heq]⟩
          · exfalso
            have hdig : ∀ a ∈ (c :: rest).takeWhile Char.isDigit, Char.isDigit a = true :=
              fun a ha => List.mem_takeWhile_imp ha
            have hlt := decDigitsVal_lt ((c :: rest).takeWhile Char.isDigit) hdig
            have hle3 : ((c :: rest).takeWhile Char.isDigit).length ≤ 3 := by omega
            have hsmall : decDigitsVal ((c :: rest).takeWhile Char.isDigit) < 1000 :=
              lt_of_lt_of_le hlt
                (le_trans (Nat.pow_le_pow_right (by norm_num) hle3) (by norm_num))
            omega

/-- C6 counterexample: the query " a" (a space followed by one letter) is
1 character long after trimming, yet the search handler does not reject it
— it proceeds to the cache and store with normalized query "a" and no
tokens, refuting the claim that the minimum-length check applies to the
trimmed query. -/
theorem search_min_length_counterexample :
    (jsTrim " a").length < 2 ∧
    handleVehicleSearchPre (some " a") none =
      SearchAction.proceed "a" none [] ∧
    ∀ code msg : String,
      handleVehicleSearchPre (some " a") none ≠ SearchAction.reject code msg := by
  have h2 : handleVehicleSearchPre (some " a") none =
      SearchAction.proceed "a" none [] := by decide
  exact ⟨by decide, h2, fun code msg hr => by rw [h2] at hr; cases hr⟩

/-- C6 amended: the search handler rejects with `invalid_params` exactly
when the raw query string (`q`, or `query` when `q` is absent or empty) is
shorter than 2 characters before trimming; the rejection happens before
any cache or database access, and trimming is applied only afterwards, for
normalization. -/
theorem search_min_length_pre_trim (q query : Option String) :
    (handleVehicleSearchPre q query =
        SearchAction.reject "invalid_params"
          "Search query must be at least 2 characters") ↔
      (orStr q (orStr query "")).length < 2 := by
  unfold handleVehicleSearchPre
  by_cases h1 : orStr q (orStr query "") = ""
  · simp [h1]
  · by_cases h2 : (orStr q (orStr query "")).length < 2
    · simp [h1, h2]
    · simp [h1, h2]

theorem search_min_length_pre_trim_witness :
    handleVehicleSearchPre (some "a") none =
      SearchAction.reject "invalid_params"
        "Search query must be at least 2 characters" ∧
    ¬(handleVehicleSearchPre (some " a") none =
      SearchAction.reject "invalid_params"
        "Search query must be at least 2 characters") :=
  ⟨(search_min_length_pre_trim (some "a") none).mpr (by decide),
    fun h => absurd ((search_min_length_pre_trim (some " a") none).mp h) (by decide)⟩

/-- C7: a whitespace token becomes the year filter exactly when it is 4
characters of decimal digits whose value lies in [1990, 2030]; every other
token of length at least 2 becomes a text token, shorter tokens are
dropped; "2024 accord" yields year 2024 and the single text token
"accord", while "honda" yields no year and one text token. -/
theorem search_tokenizer_year_and_text :
    (∀ (token : String) (n : Int),
      isYearToken token = some n ↔
        (token.length = 4 ∧ token.data.all Char.isDigit = true ∧
          n = (decDigitsVal token.data : Int) ∧ 1990 ≤ n ∧ n ≤ 2030)) ∧
    tokenizeQuery "2024 accord" = (some 2024, ["accord"]) ∧
    tokenizeQuery "honda" = (none, ["honda"]) ∧
    (∀ nq : String, (tokenizeQuery nq).2 =
      (jsSplitWs nq).filter (fun t => (isYearToken t).isNone && 2 ≤ t.length)) := by
  refine ⟨?_, by decide, by decide, ?_⟩
  · intro token n
    constructor
    · intro h
      unfold isYearToken at h
      rcases hp : jsParseInt token with _ | m
      · rw [hp] at h
        cases h
      · rw [hp] at h
        dsimp only at h
        by_cases hcond : token.length = 4 ∧ 1990 ≤ m ∧ m ≤ 2030
        · rw [if_pos hcond] at h
          cases h
          obtain ⟨hlen, h1990, h2030⟩ := hcond
          obtain ⟨hall, hval⟩ := jsParseInt_four_digit_large hp hlen h1990
          exact ⟨hlen, hall, hval, h1990, h2030⟩
        · rw [if_neg hcond] at h
          cases h
    · rintro ⟨hlen, hall, hn, h1990, h2030⟩
      have hdlen : token.data.length = 4 := hlen
      rcases hd : token.data with _ | ⟨c, rest⟩
      · rw [hd] at hdlen
        cases hdlen
      · have hallc : ∀ a ∈ c :: rest, Char.isDigit a = true := by
          rw [← hd]
          exact List.all_eq_true.mp hall
        have hcdig : Char.isDigit c = true := hallc c (by simp)
        have hcm : c ≠ '-' := by
          intro hcc
          rw [hcc] at hcdig
          cases hcdig
        have hcp : c ≠ '+' := by
          intro hcc
          rw [hcc] at hcdig
          cases hcdig
        have heq : (c :: rest).takeWhile Char.isDigit = c :: rest :=
          List.takeWhile_eq_self_iff.mpr hallc
        have hpi : jsParseInt token = some ((decDigitsVal token.data : Nat) : Int) := by
          unfold jsParseInt
          rw [hd]
          dsimp only
          rw [if_neg hcm, if_neg hcp, heq]
          rfl
        unfold isYearToken
        rw [hpi]
        dsimp only
        rw [if_pos ⟨hlen, by omega, by omega⟩]
        rw [hn]
  · intro nq
    have h := tokenize_foldl_textTokens (jsSplitWs nq) (none, [])
    simpa [tokenizeQuery] using h

theorem search_tokenizer_year_and_text_witness :
    isYearToken "2024" = some 2024 ∧ isYearToken "196cc" = none := by
  constructor
  · exact (search_tokenizer_year_and_text.1 "2024" 2024).mpr (by decide)
  · rcases hy : isYearToken "196cc" with _ | n
    · rfl
    · have h := (search_tokenizer_year_and_text.1 "196cc" n).mp hy
      exact absurd h.2.1 (by decide)

/-- C9 counterexample: in the cached make-listing computation, a generic
aggregate-view failure (here the unique-violation code "23505", which is
not in the relation-missing class) silently takes the raw-table fallback
and returns its rows as a success instead of surfacing an error to the
caller — refuting the claim that the fallback is taken only on a
"relation does not exist" class of error for every cached-list and search
computation. -/
theorem aggregate_fallback_generic_error_counterexample :
    isRelationMissing ⟨"23505"⟩ = false ∧
    handleMakesYearCompute (Except.error ⟨"23505"⟩)
        (Except.ok ["Acura", "Honda"]) =
      Resp.success ["Acura", "Honda"] ∧
    handleMakesYearCompute (Except.error ⟨"23505"⟩)
        (Except.ok ["Acura", "Honda"]) ≠ Resp.internalError := by
  have h2 : handleMakesYearCompute (Except.error ⟨"23505"⟩)
      (Except.ok ["Acura", "Honda"]) = Resp.success ["Acura", "Honda"] := by decide
  exact ⟨by decide, h2, fun hc => by rw [h2] at hc; cases hc⟩

/-- C9 amended: only the search computation restricts the fallback to the
relation-missing error class (42P01 / PGRST205), answering an internal
error on any other aggregate failure; the cached-list computation
(makes, and likewise models/years) falls back to the raw table on any
aggregate-view failure whatsoever, and errors only when the fallback
itself also fails. -/
theorem aggregate_fallback_policies :
    (∀ (e : DbError) (fb : Except DbError (List SpecSearchRow)) (limit : Nat),
      isRelationMissing e = false →
        handleSearchCompute (Except.error e) fb limit = Resp.internalError) ∧
    (∀ (e : DbError) (rows : List SpecSearchRow) (limit : Nat),
      isRelationMissing e = true →
        handleSearchCompute (Except.error e) (Except.ok rows) limit =
          Resp.success (dedupSearchRows rows limit)) ∧
    (∀ (e : DbError) (rows : List String),
      handleMakesYearCompute (Except.error e) (Except.ok rows) =
        Resp.success (jsSortStrings (dedupFirst rows))) ∧
    (∀ e e2 : DbError,
      handleMakesYearCompute (Except.error e) (Except.error e2) =
        Resp.internalError) := by
  refine ⟨?_, ?_, ?_, ?_⟩
  · intro e fb limit he
    simp [handleSearchCompute, he]
  · intro e rows limit he
    simp [handleSearchCompute, he]
  · intro e rows
    rfl
  · intro e e2
    rfl

theorem aggregate_fallback_policies_witness :
    handleSearchCompute (Except.error ⟨"23505"⟩)
        (Except.ok ([] : List SpecSearchRow)) 20 = Resp.internalError ∧
    handleSearchCompute (Except.error ⟨"42P01"⟩)
        (Except.ok ([] : List SpecSearchRow)) 20 =
      Resp.success (dedupSearchRows [] 20) ∧
    handleMakesYearCompute (Except.error ⟨"42P01"⟩) (Except.ok ["Honda"]) =
      Resp.success (jsSortStrings (dedupFirst ["Honda"])) :=
  ⟨aggregate_fallback_policies.1 ⟨"23505"⟩ (Except.ok []) 20 (by decide),
    aggregate_fallback_policies.2.1 ⟨"42P01"⟩ [] 20 (by decide),
    aggregate_fallback_policies.2.2.1 ⟨"42P01"⟩ ["Honda"]⟩

end CarIntel
